import Mathlib

/-!
Shallow embedding of `rnccd` (`src/main.rs`), a Namecheap dynamic-DNS client:
a reconciliation loop that resolves the current public IPv4 address, pushes it
to the DNS provider when it differs from the in-memory belief, and persists
the belief to a state file via an atomic temp-file-plus-rename write.

Network responses and filesystem failures are environmental, so they are
supplied as explicit oracle inputs; the filesystem is a map from paths to
optional file contents, and `update_state` additionally returns the list of
intermediate filesystem snapshots (every point at which a crash could occur).
-/

deriving instance DecidableEq for Except

namespace Rnccd

/-- An IPv4 address: four octets (models `std::net::Ipv4Addr`). -/
structure Ipv4 where
  o1 : Fin 256
  o2 : Fin 256
  o3 : Fin 256
  o4 : Fin 256
deriving DecidableEq

/-- State (read/write): our current conception of what Namecheap thinks our
IP address is (models the Rust `State` struct). -/
structure State where
  addr : Option Ipv4
deriving DecidableEq

/-- Models `State::default()`: address unknown. -/
def State.default : State := { addr := none }

/-- Config (read-only): models the Rust `Config` struct. -/
structure Config where
  domain : String
  host : Option String
  password : String

/-- Decimal rendering of one octet value (models `u8`'s `Display`, used by
`Ipv4Addr::to_string`): one to three decimal digits, no leading zeros. -/
def fmtOctet (n : Nat) : List Char :=
  if n < 10 then [Nat.digitChar n]
  else if n < 100 then [Nat.digitChar (n / 10), Nat.digitChar (n % 10)]
  else [Nat.digitChar (n / 100), Nat.digitChar (n / 10 % 10), Nat.digitChar (n % 10)]

/-- Character rendering of an IPv4 address in dotted-quad form
(models `Ipv4Addr::to_string`). -/
def fmtIpv4Chars (a : Ipv4) : List Char :=
  fmtOctet a.o1.val ++ '.' :: (fmtOctet a.o2.val ++ '.' :: (fmtOctet a.o3.val ++ '.' :: fmtOctet a.o4.val))

/-- String rendering of an IPv4 address (models `Ipv4Addr::to_string`). -/
def fmtIpv4 (a : Ipv4) : String :=
  String.mk (fmtIpv4Chars a)

/-- Parse one decimal octet (models the octet rule of `Ipv4Addr::from_str`):
nonempty, all digits, at most three of them, no leading zero, value below 256. -/
def parseOctet (cs : List Char) : Option Nat :=
  match cs with
  | [] => none
  | c :: rest =>
    if c = '0' ∧ rest ≠ [] then none
    else if (cs.all Char.isDigit) ∧ cs.length ≤ 3 then
      let n := cs.foldl (fun acc d => acc * 10 + (d.toNat - 48)) 0
      if n ≤ 255 then some n else none
    else none

/-- Split a character list on `'.'` separators (models `'.'`-separated field
scanning in `Ipv4Addr::from_str`). -/
def splitDots : List Char → List (List Char)
  | [] => [[]]
  | c :: rest =>
    if c = '.' then [] :: splitDots rest
    else
      match splitDots rest with
      | [] => [[c]]
      | g :: gs => (c :: g) :: gs

/-- Parse a dotted-quad IPv4 address (models `Ipv4Addr::from_str`, invoked by
`resp.text().await?.parse()` in `current_address`). -/
def parseIpv4 (s : String) : Option Ipv4 :=
  match splitDots s.toList with
  | [c1, c2, c3, c4] =>
    match parseOctet c1, parseOctet c2, parseOctet c3, parseOctet c4 with
    | some n1, some n2, some n3, some n4 =>
      if h : n1 < 256 ∧ n2 < 256 ∧ n3 < 256 ∧ n4 < 256 then
        some ⟨⟨n1, h.1⟩, ⟨n2, h.2.1⟩, ⟨n3, h.2.2.1⟩, ⟨n4, h.2.2.2⟩⟩
      else none
    | _, _, _, _ => none
  | _ => none

/-- YAML serialization of `State` (models `serde_yaml::to_writer` on the
`State` struct: `addr: null` for `None`, `addr: 1.2.3.4` for `Some`). -/
def serializeState (st : State) : String :=
  match st.addr with
  | none => "addr: null\n"
  | some a => String.mk (('a' :: 'd' :: 'd' :: 'r' :: ':' :: ' ' :: fmtIpv4Chars a) ++ ['\n'])

/-- YAML parsing of `State` (models `serde_yaml::from_reader` on the documents
that `serializeState` emits: an `addr:` line holding `null` or a dotted quad). -/
def parseState (s : String) : Option State :=
  match s.toList with
  | c1 :: c2 :: c3 :: c4 :: c5 :: c6 :: rest =>
    if c1 = 'a' ∧ c2 = 'd' ∧ c3 = 'd' ∧ c4 = 'r' ∧ c5 = ':' ∧ c6 = ' ' then
      if rest = ['n', 'u', 'l', 'l', '\n'] then some { addr := none }
      else if rest.getLast? = some '\n' then
        (parseIpv4 (String.mk rest.dropLast)).map (fun a => { addr := some a })
      else none
    else none
  | _ => none

/-- An HTTP response as seen by the program: a transport status code and a
body. Network traffic is environmental, so responses are oracle inputs. -/
structure HttpResponse where
  status : Nat
  body : String
deriving DecidableEq

/-- Boolean prefix test on character lists. -/
def isPrefixB : List Char → List Char → Bool
  | [], _ => true
  | _ :: _, [] => false
  | a :: as, b :: bs => if a = b then isPrefixB as bs else false

/-- Boolean substring test on character lists (models `str::contains` with a
literal pattern). -/
def containsSub (needle : List Char) : List Char → Bool
  | [] => isPrefixB needle []
  | c :: t => isPrefixB needle (c :: t) || containsSub needle t

/-- The literal success marker `update_address` looks for in the provider's
response body. -/
def errMarker : List Char := "<ErrCount>0</ErrCount>".toList

/-- The query parameters `update_address` sends: host (default `@`), domain,
password, and the dotted-quad address. -/
def updateQuery (cfg : Config) (addr : Ipv4) : List (String × String) :=
  [("host", cfg.host.getD "@"), ("domain", cfg.domain),
   ("password", cfg.password), ("ip", fmtIpv4 addr)]

/-- Models `update_address`: sends the update request (query given by `updateQuery`)
and interprets the response. `none` models a transport-level send/receive
failure (`?` on `send()`/`text()`). The provider communicates errors via the
body, so success is detected by searching the body for `<ErrCount>0</ErrCount>`;
any other body yields an error carrying the body. -/
def update_address (cfg : Config) (addr : Ipv4) (resp : Option HttpResponse) :
    Except String Unit :=
  match resp with
  | none => Except.error "transport error"
  | some r =>
    if containsSub errMarker r.body.toList then Except.ok ()
    else Except.error ("update request got error: " ++ r.body)

/-- Models `current_address`: asks the what-is-my-IP endpoint; fails on transport
error (`none`), on a status other than 200 OK, or if the body does not parse
as a dotted-quad IPv4 address. -/
def current_address (resp : Option HttpResponse) : Except String Ipv4 :=
  match resp with
  | none => Except.error "transport error"
  | some r =>
    if r.status ≠ 200 then Except.error "unexpected status code"
    else
      match parseIpv4 r.body with
      | some a => Except.ok a
      | none => Except.error "address parse error"

/-- A filesystem path, as a list of components. -/
abbrev TPath := List String

/-- A filesystem: maps each path to the content of the file there, if any. -/
abbrev FS := TPath → Option String

/-- Models `Path::parent`: drop the final component; `none` when there is none. -/
def pathParent (p : TPath) : Option TPath :=
  if p = [] then none else some p.dropLast

/-- Oracle inputs for one `update_state` call: which temp path
`NamedTempFile::new_in(dir)` creates (or `none` if creation fails), whether
the serialized write to it succeeds (`cut` is how many bytes land if not),
and whether the atomic rename (`persist`) succeeds. -/
structure PersistEnv where
  tempChoice : TPath → Option TPath
  writeOk : Bool
  cut : Nat
  renameOk : Bool

/-- Models `update_state`: writes `st` to a fresh temp file in the parent directory
of `state_path`, then atomically renames it onto `state_path`. On any failure
the temp file is dropped (deleted) and the error propagates. Returns the
result, the final filesystem, and the list of every intermediate filesystem
(each point at which a crash could occur). -/
def update_state (penv : PersistEnv) (state_path : TPath) (st : State) (fs : FS) :
    Except String Unit × FS × List FS :=
  match pathParent state_path with
  | none => (Except.error "couldn't determine parent directory", fs, [fs])
  | some dir =>
    match penv.tempChoice dir with
    | none => (Except.error "couldn't create temporary file", fs, [fs])
    | some tmp =>
      let fsC : FS := fun p => if p = tmp then some "" else fs p
      if penv.writeOk then
        let fsW : FS := fun p => if p = tmp then some (serializeState st) else fs p
        if penv.renameOk then
          let fsR : FS := fun p =>
            if p = state_path then some (serializeState st)
            else if p = tmp then none else fs p
          (Except.ok (), fsR, [fs, fsC, fsW, fsR])
        else
          let fsD : FS := fun p => if p = tmp then none else fs p
          (Except.error "couldn't persist temporary file", fsD, [fs, fsC, fsW, fsD])
      else
        let fsP : FS := fun p =>
          if p = tmp then some ((serializeState st).take penv.cut) else fs p
        let fsD : FS := fun p => if p = tmp then none else fs p
        (Except.error "couldn't write temporary file", fsD, [fs, fsC, fsP, fsD])

/-- Startup state-file load (`main`, lines 64-74): if the file exists, parse
it (unparsable is fatal); if it does not exist, write the default state to
disk first (a write failure is fatal); any other read error (`envFail`) is
fatal. -/
def loadState (penv : PersistEnv) (envFail : Bool) (fs : FS) (path : TPath) :
    Except String (State × FS) :=
  if envFail then Except.error "Couldn't read state file"
  else
    match fs path with
    | some content =>
      match parseState content with
      | some st => Except.ok (st, fs)
      | none => Except.error "Couldn't parse state file"
    | none =>
      match update_state penv path State.default fs with
      | (Except.ok _, fs1, _) => Except.ok (State.default, fs1)
      | (Except.error _, _, _) => Except.error "Couldn't write initial state file"

/-- The reconciliation loop's mutable state: `namecheap_addr` (the in-memory
belief about what Namecheap has on record) and `state` (the in-memory copy of
the last successfully persisted `State`). -/
structure LoopState where
  namecheap_addr : Option Ipv4
  state : State
deriving DecidableEq

/-- Startup (`main` through line 91): load the state file, then seed both the
belief and the loop's state copy from it. -/
def mainStartup (penv : PersistEnv) (envFail : Bool) (fs : FS) (path : TPath) :
    Except String (LoopState × FS) :=
  match loadState penv envFail fs path with
  | Except.error e => Except.error e
  | Except.ok (st, fs1) => Except.ok ({ namecheap_addr := st.addr, state := st }, fs1)

/-- Oracle inputs for one tick: the resolver's response, the provider's
response to an update call (if one is made), and the persistence oracles. -/
structure TickEnv where
  resolveResp : Option HttpResponse
  updateResp : Option HttpResponse
  persistEnv : PersistEnv

/-- Ghost record of what one tick did: the resolved address (if any), the
address sent to the provider (if an update call was made) and whether it
succeeded, the `State` written to disk (if a persistence call was made) and
whether it succeeded, and the belief before the tick and after its update
phase. -/
structure TickEvents where
  resolvedOk : Option Ipv4
  updateCalled : Option Ipv4
  updateOk : Bool
  persistCalled : Option State
  persistOk : Bool
  beliefBefore : Option Ipv4
  beliefAfterUpdate : Option Ipv4
deriving DecidableEq

/-- The persistence phase of a tick (`main`, lines 118-128): if the resolved
address differs from the state copy, write the new state; adopt it in memory
only when the write succeeds. -/
def persistPhase (penv : PersistEnv) (path : TPath) (current : Ipv4) (fs : FS)
    (s1 : LoopState) (upCalled : Option Ipv4) (upOk : Bool) (beliefB : Option Ipv4) :
    FS × LoopState × TickEvents :=
  if some current ≠ s1.state.addr then
    match update_state penv path { addr := some current } fs with
    | (Except.ok _, fs2, _) =>
      (fs2, { s1 with state := { addr := some current } },
        ⟨some current, upCalled, upOk, some { addr := some current }, true,
          beliefB, s1.namecheap_addr⟩)
    | (Except.error _, fs2, _) =>
      (fs2, s1,
        ⟨some current, upCalled, upOk, some { addr := some current }, false,
          beliefB, s1.namecheap_addr⟩)
  else
    (fs, s1, ⟨some current, upCalled, upOk, none, false, beliefB, s1.namecheap_addr⟩)

/-- One tick of the reconciliation loop (`main`, lines 92-129): resolve the
current address (failure abandons the tick); if it differs from the belief,
call the provider (failure abandons the tick; success updates the belief);
then persist if the resolved address differs from the state copy. -/
def tick (cfg : Config) (path : TPath) (env : TickEnv) (fs : FS) (s : LoopState) :
    FS × LoopState × TickEvents :=
  match current_address env.resolveResp with
  | Except.error _ =>
    (fs, s, ⟨none, none, false, none, false, s.namecheap_addr, s.namecheap_addr⟩)
  | Except.ok current =>
    if some current ≠ s.namecheap_addr then
      match update_address cfg current env.updateResp with
      | Except.error _ =>
        (fs, s, ⟨some current, some current, false, none, false,
          s.namecheap_addr, s.namecheap_addr⟩)
      | Except.ok _ =>
        persistPhase env.persistEnv path current fs
          { s with namecheap_addr := some current } (some current) true s.namecheap_addr
    else
      persistPhase env.persistEnv path current fs s none false s.namecheap_addr

/-- Run the reconciliation loop over a list of tick environments, collecting
the ghost events of each tick. -/
def run (cfg : Config) (path : TPath) (fs : FS) (s : LoopState) :
    List TickEnv → FS × LoopState × List TickEvents
  | [] => (fs, s, [])
  | env :: rest =>
    ((run cfg path (tick cfg path env fs s).1 (tick cfg path env fs s).2.1 rest).1,
     (run cfg path (tick cfg path env fs s).1 (tick cfg path env fs s).2.1 rest).2.1,
     (tick cfg path env fs s).2.2 ::
       (run cfg path (tick cfg path env fs s).1 (tick cfg path env fs s).2.1 rest).2.2)

/-- Whole-program model: startup (config parse elided — it feeds only the
update query), then the reconciliation loop over the given tick environments. -/
def mainRun (cfg : Config) (penv : PersistEnv) (envFail : Bool) (fs : FS) (path : TPath)
    (envs : List TickEnv) : Except String (FS × LoopState × List TickEvents) :=
  match mainStartup penv envFail fs path with
  | Except.error e => Except.error e
  | Except.ok (s0, fs1) => Except.ok (run cfg path fs1 s0 envs)

/-! Concrete fixtures used to instantiate the theorems below. -/

def wAddr1 : Ipv4 := ⟨1, 2, 3, 4⟩

def wAddr2 : Ipv4 := ⟨5, 6, 7, 8⟩

def wPath : TPath := ["home", "state.yaml"]

def wFS0 : FS := fun p => if p = wPath then some "addr: null\n" else none

def wPenv : PersistEnv := ⟨fun d => some (d ++ ["tmp1"]), true, 0, true⟩

def wPenvBad : PersistEnv := ⟨fun d => some (d ++ ["tmp1"]), true, 0, false⟩

def wCfg : Config := ⟨"example.com", none, "pw"⟩

def wOkBody : String := "<?xml?><ErrCount>0</ErrCount>"

def wBadBody : String := "<ErrCount>1</ErrCount>"

def wFSE : FS := fun _ => none

def wEnvs1 : List TickEnv := [⟨some ⟨200, "1.2.3.4"⟩, some ⟨200, wOkBody⟩, wPenv⟩]

def wEnvs2 : List TickEnv :=
  [⟨some ⟨200, "1.2.3.4"⟩, none, wPenv⟩, ⟨some ⟨200, "1.2.3.4"⟩, none, wPenv⟩]

/-! ### Substring search -/

lemma isPrefixB_iff : ∀ l1 l2 : List Char, isPrefixB l1 l2 = true ↔ l1 <+: l2
  | [], l2 => by simp [isPrefixB]
  | a :: as, [] => by simp [isPrefixB]
  | a :: as, b :: bs => by
    rw [isPrefixB, List.cons_prefix_cons]
    by_cases h : a = b
    · simp [h, isPrefixB_iff as bs]
    · simp [h]

lemma containsSub_iff (needle : List Char) :
    ∀ hay : List Char, containsSub needle hay = true ↔ needle <:+: hay := by
  intro hay
  induction hay with
  | nil =>
    rw [containsSub, isPrefixB_iff]
    constructor
    · intro h
      exact h.isInfix
    · intro h
      exact List.eq_nil_of_infix_nil h ▸ List.prefix_refl []
  | cons c t ih =>
    rw [containsSub, List.infix_cons_iff, Bool.or_eq_true, isPrefixB_iff, ih]

/-- C4: `update_address` succeeds exactly when the response body contains the
literal substring `<ErrCount>0</ErrCount>`; any other body yields a rejection
error carrying the body, and a transport failure yields an error. -/
theorem update_address_marker_iff (cfg : Config) (addr : Ipv4) (resp : Option HttpResponse) :
    (resp = none → update_address cfg addr resp = Except.error "transport error") ∧
    (∀ r, resp = some r →
      ((update_address cfg addr resp = Except.ok ()) ↔ errMarker <:+: r.body.toList) ∧
      (¬ errMarker <:+: r.body.toList →
        update_address cfg addr resp = Except.error ("update request got error: " ++ r.body))) := by
  constructor
  · rintro rfl
    rfl
  · rintro r rfl
    constructor
    · constructor
      · intro hok
        rw [update_address] at hok
        by_cases h : containsSub errMarker r.body.toList = true
        · exact (containsSub_iff _ _).mp h
        · rw [if_neg h] at hok
          simp at hok
      · intro hin
        rw [update_address, if_pos ((containsSub_iff _ _).mpr hin)]
    · intro h
      have hb : containsSub errMarker r.body.toList ≠ true := fun hc =>
        h ((containsSub_iff _ _).mp hc)
      rw [update_address, if_neg hb]

/-- C4 witness: a body containing the marker is accepted, a body without it is
rejected with the body in the error. -/
theorem update_address_marker_iff_witness :
    (update_address wCfg wAddr1 (some ⟨200, wOkBody⟩) = Except.ok ()) ∧
    (update_address wCfg wAddr1 (some ⟨200, wBadBody⟩) =
      Except.error ("update request got error: " ++ wBadBody)) :=
  ⟨((update_address_marker_iff wCfg wAddr1 (some ⟨200, wOkBody⟩)).2 _ rfl).1.mpr (by decide),
   ((update_address_marker_iff wCfg wAddr1 (some ⟨200, wBadBody⟩)).2 _ rfl).2 (by decide)⟩

/-- C10: `update_address` never inspects the HTTP status code: its outcome
depends only on the body, so a non-success status whose body contains the
marker is still treated as a successful update. -/
theorem update_address_ignores_status (cfg : Config) (addr : Ipv4) (s1 s2 : Nat) (body : String) :
    update_address cfg addr (some ⟨s1, body⟩) = update_address cfg addr (some ⟨s2, body⟩) ∧
    (containsSub errMarker body.toList = true →
      update_address cfg addr (some ⟨s1, body⟩) = Except.ok ()) := by
  refine ⟨rfl, fun h => ?_⟩
  rw [update_address, if_pos h]

/-- C10 witness: a 500-status response whose body contains the marker is a
successful update. -/
theorem update_address_ignores_status_witness :
    update_address wCfg wAddr1 (some ⟨500, wOkBody⟩) = Except.ok () :=
  (update_address_ignores_status wCfg wAddr1 500 200 wOkBody).2 (by decide)

/-! ### Per-tick behavior -/

/-- C6: a resolver failure abandons the tick with no mutation at all: the
filesystem, the belief, and the state copy are untouched, and neither an
update call nor a persistence call is made. -/
theorem resolver_failure_isolation (cfg : Config) (path : TPath) (env : TickEnv)
    (fs : FS) (s : LoopState) (e : String)
    (hres : current_address env.resolveResp = Except.error e) :
    tick cfg path env fs s =
      (fs, s, ⟨none, none, false, none, false, s.namecheap_addr, s.namecheap_addr⟩) := by
  rw [tick, hres]

/-- C6 witness: a transport error on resolution leaves a concrete loop state
and filesystem exactly as they were, with no calls recorded. -/
theorem resolver_failure_isolation_witness :
    current_address none = Except.error "transport error" ∧
    tick wCfg wPath ⟨none, some ⟨200, wOkBody⟩, wPenv⟩ wFS0 ⟨some wAddr1, ⟨some wAddr2⟩⟩ =
      (wFS0, ⟨some wAddr1, ⟨some wAddr2⟩⟩,
        ⟨none, none, false, none, false, some wAddr1, some wAddr1⟩) :=
  ⟨rfl, resolver_failure_isolation wCfg wPath ⟨none, some ⟨200, wOkBody⟩, wPenv⟩ wFS0
    ⟨some wAddr1, ⟨some wAddr2⟩⟩ "transport error" rfl⟩

/-- C5: when an update call is attempted and fails, the tick is abandoned:
filesystem, belief and state copy unchanged and no persistence call; when the
update call succeeds, the belief becomes the resolved address. -/
theorem update_failure_abandons_tick (cfg : Config) (path : TPath) (env : TickEnv)
    (fs : FS) (s : LoopState) (a : Ipv4)
    (hres : current_address env.resolveResp = Except.ok a)
    (hne : some a ≠ s.namecheap_addr) :
    (∀ e, update_address cfg a env.updateResp = Except.error e →
      tick cfg path env fs s =
        (fs, s, ⟨some a, some a, false, none, false, s.namecheap_addr, s.namecheap_addr⟩)) ∧
    (update_address cfg a env.updateResp = Except.ok () →
      (tick cfg path env fs s).2.1.namecheap_addr = some a) := by
  constructor
  · intro e hupd
    rw [tick, hres]
    simp only [if_pos hne, hupd]
  · intro hupd
    rw [tick, hres]
    simp only [if_pos hne, hupd]
    rw [persistPhase]
    split
    · split <;> rfl
    · rfl

/-- C5 witness: at a concrete tick whose update call is rejected by the
provider, nothing changes and no persistence call is made. -/
theorem update_failure_abandons_tick_witness :
    current_address (some ⟨200, "1.2.3.4"⟩) = Except.ok wAddr1 ∧
    some wAddr1 ≠ (⟨some wAddr2, ⟨some wAddr2⟩⟩ : LoopState).namecheap_addr ∧
    tick wCfg wPath ⟨some ⟨200, "1.2.3.4"⟩, some ⟨200, wBadBody⟩, wPenv⟩ wFS0
        ⟨some wAddr2, ⟨some wAddr2⟩⟩ =
      (wFS0, ⟨some wAddr2, ⟨some wAddr2⟩⟩,
        ⟨some wAddr1, some wAddr1, false, none, false, some wAddr2, some wAddr2⟩) :=
  ⟨by decide, by decide,
    (update_failure_abandons_tick wCfg wPath ⟨some ⟨200, "1.2.3.4"⟩, some ⟨200, wBadBody⟩, wPenv⟩
      wFS0 ⟨some wAddr2, ⟨some wAddr2⟩⟩ wAddr1 (by decide) (by decide)).1
      ("update request got error: " ++ wBadBody) (by decide)⟩

/-! ### Serialization round trip -/

set_option maxHeartbeats 1000000 in
set_option maxRecDepth 10000 in
lemma octet_facts : ∀ n : Fin 256,
    parseOctet (fmtOctet n.val) = some n.val ∧ '.' ∉ fmtOctet n.val ∧ fmtOctet n.val ≠ [] := by
  decide

lemma splitDots_ne_nil : ∀ l : List Char, splitDots l ≠ []
  | [] => by simp [splitDots]
  | c :: t => by
    rw [splitDots]
    by_cases h : c = '.'
    · simp [h]
    · rw [if_neg h]
      rcases hs : splitDots t with _ | ⟨g, gs⟩ <;> simp

lemma splitDots_append_dot : ∀ (l1 l2 : List Char), '.' ∉ l1 →
    splitDots (l1 ++ '.' :: l2) = l1 :: splitDots l2
  | [], l2, _ => by simp [splitDots]
  | c :: t, l2, h => by
    have hc : c ≠ '.' := fun he => h (he ▸ List.mem_cons_self c t)
    have ht : '.' ∉ t := fun m => h (List.mem_cons_of_mem _ m)
    rw [List.cons_append, splitDots, if_neg hc, splitDots_append_dot t l2 ht]

lemma splitDots_no_dot : ∀ l : List Char, '.' ∉ l → splitDots l = [l]
  | [], _ => rfl
  | c :: t, h => by
    have hc : c ≠ '.' := fun he => h (he ▸ List.mem_cons_self c t)
    have ht : '.' ∉ t := fun m => h (List.mem_cons_of_mem _ m)
    rw [splitDots, if_neg hc, splitDots_no_dot t ht]

lemma parseIpv4_fmt (a : Ipv4) : parseIpv4 (fmtIpv4 a) = some a := by
  obtain ⟨h1p, h1d, h1n⟩ := octet_facts a.o1
  obtain ⟨h2p, h2d, h2n⟩ := octet_facts a.o2
  obtain ⟨h3p, h3d, h3n⟩ := octet_facts a.o3
  obtain ⟨h4p, h4d, h4n⟩ := octet_facts a.o4
  rw [parseIpv4, fmtIpv4]
  have hl : (String.mk (fmtIpv4Chars a)).toList = fmtIpv4Chars a := rfl
  rw [hl, fmtIpv4Chars,
    splitDots_append_dot _ _ h1d, splitDots_append_dot _ _ h2d,
    splitDots_append_dot _ _ h3d, splitDots_no_dot _ h4d]
  simp only [h1p, h2p, h3p, h4p]
  rw [dif_pos ⟨a.o1.isLt, a.o2.isLt, a.o3.isLt, a.o4.isLt⟩]

lemma fmtIpv4Chars_len (a : Ipv4) : 7 ≤ (fmtIpv4Chars a).length := by
  obtain ⟨-, -, h1n⟩ := octet_facts a.o1
  obtain ⟨-, -, h2n⟩ := octet_facts a.o2
  obtain ⟨-, -, h3n⟩ := octet_facts a.o3
  obtain ⟨-, -, h4n⟩ := octet_facts a.o4
  have l1 := List.length_pos.mpr h1n
  have l2 := List.length_pos.mpr h2n
  have l3 := List.length_pos.mpr h3n
  have l4 := List.length_pos.mpr h4n
  rw [fmtIpv4Chars]
  simp only [List.length_append, List.length_cons]
  omega

lemma parseState_serialize (st : State) : parseState (serializeState st) = some st := by
  rcases st with ⟨addr⟩
  cases addr with
  | none => decide
  | some a =>
    rw [serializeState, parseState]
    have hl : (String.mk (('a' :: 'd' :: 'd' :: 'r' :: ':' :: ' ' :: fmtIpv4Chars a) ++ ['\n'])).toList
        = 'a' :: 'd' :: 'd' :: 'r' :: ':' :: ' ' :: (fmtIpv4Chars a ++ ['\n']) := by
      simp
    rw [hl]
    show (if 'a' = 'a' ∧ 'd' = 'd' ∧ 'd' = 'd' ∧ 'r' = 'r' ∧ ':' = ':' ∧ ' ' = ' ' then
        if fmtIpv4Chars a ++ ['\n'] = ['n', 'u', 'l', 'l', '\n'] then some (State.mk none)
        else if (fmtIpv4Chars a ++ ['\n']).getLast? = some '\n' then
          (parseIpv4 (String.mk (fmtIpv4Chars a ++ ['\n']).dropLast)).map
            (fun x => State.mk (some x))
        else none
      else (none : Option State)) = some (State.mk (some a))
    rw [if_pos ⟨rfl, rfl, rfl, rfl, rfl, rfl⟩]
    have hne : fmtIpv4Chars a ++ ['\n'] ≠ ['n', 'u', 'l', 'l', '\n'] := by
      intro he
      have := congrArg List.length he
      simp only [List.length_append, List.length_cons, List.length_nil] at this
      have := fmtIpv4Chars_len a
      omega
    rw [if_neg hne, List.getLast?_concat, if_pos rfl, List.dropLast_concat]
    have hm : String.mk (fmtIpv4Chars a) = fmtIpv4 a := rfl
    rw [hm, parseIpv4_fmt]
    rfl

/-! ### State-store lemmas -/

lemma update_state_ok_target (penv : PersistEnv) (path : TPath) (st : State) (fs : FS)
    (h : (update_state penv path st fs).1 = Except.ok ()) :
    (update_state penv path st fs).2.1 path = some (serializeState st) := by
  revert h
  rw [update_state]
  rcases hp : pathParent path with _ | dir <;> simp only []
  · intro h
    exact absurd h (by simp)
  · rcases ht : penv.tempChoice dir with _ | tmp <;> simp only []
    · intro h
      exact absurd h (by simp)
    · by_cases hw : penv.writeOk = true
      · rw [if_pos hw]
        by_cases hr : penv.renameOk = true
        · rw [if_pos hr]
          intro _
          simp
        · rw [if_neg hr]
          intro h
          exact absurd h (by simp)
      · rw [if_neg hw]
        intro h
        exact absurd h (by simp)

lemma update_state_error_fs (penv : PersistEnv) (path : TPath) (st : State) (fs : FS)
    (fresh : ∀ dir tmp, penv.tempChoice dir = some tmp → fs tmp = none)
    (e : String) (h : (update_state penv path st fs).1 = Except.error e) :
    (update_state penv path st fs).2.1 = fs := by
  revert h
  rw [update_state]
  rcases hp : pathParent path with _ | dir <;> simp only []
  · intro _
    trivial
  · rcases ht : penv.tempChoice dir with _ | tmp <;> simp only []
    · intro _
      trivial
    · have hdel : (fun p => if p = tmp then none else fs p) = fs := by
        funext p
        by_cases hpt : p = tmp
        · rw [if_pos hpt, hpt, fresh dir tmp ht]
        · rw [if_neg hpt]
      by_cases hw : penv.writeOk = true
      · rw [if_pos hw]
        by_cases hr : penv.renameOk = true
        · rw [if_pos hr]
          intro h
          exact absurd h (by simp)
        · rw [if_neg hr]
          intro _
          exact hdel
      · rw [if_neg hw]
        intro _
        exact hdel

lemma update_state_ok_fs (penv : PersistEnv) (path : TPath) (st : State) (fs : FS)
    (fresh : ∀ dir tmp, penv.tempChoice dir = some tmp → fs tmp = none)
    (h : (update_state penv path st fs).1 = Except.ok ()) :
    (update_state penv path st fs).2.1 =
      fun p => if p = path then some (serializeState st) else fs p := by
  revert h
  rw [update_state]
  rcases hp : pathParent path with _ | dir <;> simp only []
  · intro h
    exact absurd h (by simp)
  · rcases ht : penv.tempChoice dir with _ | tmp <;> simp only []
    · intro h
      exact absurd h (by simp)
    · by_cases hw : penv.writeOk = true
      · rw [if_pos hw]
        by_cases hr : penv.renameOk = true
        · rw [if_pos hr]
          intro _
          funext p
          by_cases hpp : p = path
          · simp [hpp]
          · by_cases hpt : p = tmp
            · simp [hpp, hpt, fresh dir tmp ht]
            · simp [hpp, hpt]
        · rw [if_neg hr]
          intro h
          exact absurd h (by simp)
      · rw [if_neg hw]
        intro h
        exact absurd h (by simp)

lemma wFS0_fresh : ∀ dir tmp : TPath, some (dir ++ ["tmp1"]) = some tmp →
    wFS0 tmp = none ∧ pathParent tmp = some dir := by
  intro dir tmp h
  have he : dir ++ ["tmp1"] = tmp := Option.some.inj h
  subst he
  constructor
  · show (if dir ++ ["tmp1"] = wPath then some "addr: null\n" else none) = none
    rw [if_neg]
    intro he
    have hc := congrArg List.getLast? he
    rw [List.getLast?_concat] at hc
    simp [wPath] at hc
  · rw [pathParent, if_neg (by simp), List.dropLast_concat]

/-- C2: `update_state` writes to a temp file in the same directory as the
target and installs it by an atomic rename only once the content is complete:
on success the target holds the full new serialization (and a load parses it
back); on any failure the filesystem is exactly as before and the error
propagates; every intermediate filesystem (crash point) has the target equal
to the old content or the full new content, and only the target's directory
is ever touched. -/
theorem update_state_crash_safe (penv : PersistEnv) (path : TPath) (st : State)
    (fs : FS) (old : String)
    (fresh : ∀ dir tmp, penv.tempChoice dir = some tmp →
      fs tmp = none ∧ pathParent tmp = some dir)
    (hold : fs path = some old) :
    ((update_state penv path st fs).1 = Except.ok () →
      (update_state penv path st fs).2.1 path = some (serializeState st) ∧
      parseState (serializeState st) = some st) ∧
    (∀ e, (update_state penv path st fs).1 = Except.error e →
      (update_state penv path st fs).2.1 = fs) ∧
    (∀ g ∈ (update_state penv path st fs).2.2,
      g path = some old ∨ g path = some (serializeState st)) ∧
    (∀ g ∈ (update_state penv path st fs).2.2, ∀ p, g p ≠ fs p →
      pathParent p = pathParent path) := by
  have snap : ∀ g ∈ (update_state penv path st fs).2.2,
      (g path = some old ∨ g path = some (serializeState st)) ∧
      (∀ p, g p ≠ fs p → pathParent p = pathParent path) := by
    rw [update_state]
    rcases hp : pathParent path with _ | dir <;> simp only []
    · intro g hg
      simp only [List.mem_singleton] at hg
      subst hg
      exact ⟨Or.inl hold, fun p hne => absurd rfl hne⟩
    · rcases ht : penv.tempChoice dir with _ | tmp <;> simp only []
      · intro g hg
        simp only [List.mem_singleton] at hg
        subst hg
        exact ⟨Or.inl hold, fun p hne => absurd rfl hne⟩
      · obtain ⟨hfr, hpar⟩ := fresh dir tmp ht
        have htp : ¬path = tmp := by
          intro he
          rw [← he, hold] at hfr
          cases hfr
        have sideConf : ∀ v : Option String, ∀ p,
            (if p = tmp then v else fs p) ≠ fs p → pathParent p = some dir := by
          intro v p hne
          by_cases hpt : p = tmp
          · rw [hpt]
            exact hpar
          · rw [if_neg hpt] at hne
            exact absurd rfl hne
        have sidePath : ∀ v : Option String,
            (if path = tmp then v else fs path) = some old := by
          intro v
          rw [if_neg htp]
          exact hold
        by_cases hw : penv.writeOk = true
        · rw [if_pos hw]
          by_cases hr : penv.renameOk = true
          · rw [if_pos hr]
            intro g hg
            simp only [List.mem_cons, List.not_mem_nil, or_false] at hg
            rcases hg with rfl | rfl | rfl | rfl
            · exact ⟨Or.inl hold, fun p hne => absurd rfl hne⟩
            · exact ⟨Or.inl (sidePath _), sideConf _⟩
            · exact ⟨Or.inl (sidePath _), sideConf _⟩
            · refine ⟨Or.inr (by simp), fun p hne => ?_⟩
              by_cases hpp : p = path
              · rw [hpp]
                exact hp
              · by_cases hpt : p = tmp
                · rw [hpt]
                  exact hpar
                · simp only [if_neg hpp, if_neg hpt] at hne
                  exact absurd rfl hne
          · rw [if_neg hr]
            intro g hg
            simp only [List.mem_cons, List.not_mem_nil, or_false] at hg
            rcases hg with rfl | rfl | rfl | rfl
            · exact ⟨Or.inl hold, fun p hne => absurd rfl hne⟩
            · exact ⟨Or.inl (sidePath _), sideConf _⟩
            · exact ⟨Or.inl (sidePath _), sideConf _⟩
            · exact ⟨Or.inl (sidePath _), sideConf _⟩
        · rw [if_neg hw]
          intro g hg
          simp only [List.mem_cons, List.not_mem_nil, or_false] at hg
          rcases hg with rfl | rfl | rfl | rfl
          · exact ⟨Or.inl hold, fun p hne => absurd rfl hne⟩
          · exact ⟨Or.inl (sidePath _), sideConf _⟩
          · exact ⟨Or.inl (sidePath _), sideConf _⟩
          · exact ⟨Or.inl (sidePath _), sideConf _⟩
  refine ⟨?_, ?_, fun g hg => (snap g hg).1, fun g hg => (snap g hg).2⟩
  · intro h
    exact ⟨update_state_ok_target penv path st fs h, parseState_serialize st⟩
  · intro e h
    exact update_state_error_fs penv path st fs (fun d t ht => (fresh d t ht).1) e h

/-- C2 witness: the crash-safety theorem instantiated at a concrete state
file, temp-file chooser and new state. -/
theorem update_state_crash_safe_witness :
    (∀ dir tmp, wPenv.tempChoice dir = some tmp →
      wFS0 tmp = none ∧ pathParent tmp = some dir) ∧
    wFS0 wPath = some "addr: null\n" ∧
    (((update_state wPenv wPath ⟨some wAddr1⟩ wFS0).1 = Except.ok () →
      (update_state wPenv wPath ⟨some wAddr1⟩ wFS0).2.1 wPath
        = some (serializeState ⟨some wAddr1⟩) ∧
      parseState (serializeState ⟨some wAddr1⟩) = some ⟨some wAddr1⟩) ∧
    (∀ e, (update_state wPenv wPath ⟨some wAddr1⟩ wFS0).1 = Except.error e →
      (update_state wPenv wPath ⟨some wAddr1⟩ wFS0).2.1 = wFS0) ∧
    (∀ g ∈ (update_state wPenv wPath ⟨some wAddr1⟩ wFS0).2.2,
      g wPath = some "addr: null\n" ∨ g wPath = some (serializeState ⟨some wAddr1⟩)) ∧
    (∀ g ∈ (update_state wPenv wPath ⟨some wAddr1⟩ wFS0).2.2, ∀ p, g p ≠ wFS0 p →
      pathParent p = pathParent wPath)) :=
  ⟨fun dir tmp h => wFS0_fresh dir tmp h, rfl,
    update_state_crash_safe wPenv wPath ⟨some wAddr1⟩ wFS0 "addr: null\n"
      (fun dir tmp h => wFS0_fresh dir tmp h) rfl⟩

/-! ### Startup / bootstrap -/

/-- C7: when no state file exists, startup loads the default (unknown)
state and immediately writes it to disk, so the loop starts with the file
already materialized, before any tick's address resolution; a write failure,
an unparsable existing file, or a non-not-found read error is fatal. -/
theorem first_run_bootstrap (cfg : Config) (penv : PersistEnv) (fs : FS) (path : TPath) :
    (fs path = none →
      ((update_state penv path State.default fs).1 = Except.ok () →
        mainStartup penv false fs path =
          Except.ok (⟨none, State.default⟩, (update_state penv path State.default fs).2.1) ∧
        (update_state penv path State.default fs).2.1 path
          = some (serializeState State.default) ∧
        State.default.addr = none ∧
        (∀ envs, mainRun cfg penv false fs path envs =
          Except.ok (run cfg path (update_state penv path State.default fs).2.1
            ⟨none, State.default⟩ envs))) ∧
      (∀ e, (update_state penv path State.default fs).1 = Except.error e →
        mainStartup penv false fs path = Except.error "Couldn't write initial state file")) ∧
    (∀ c, fs path = some c → parseState c = none →
      mainStartup penv false fs path = Except.error "Couldn't parse state file") ∧
    (mainStartup penv true fs path = Except.error "Couldn't read state file") := by
  refine ⟨fun hfs => ⟨fun hok => ?_, fun e herr => ?_⟩, fun c hfs hparse => ?_, ?_⟩
  · rcases hu : update_state penv path State.default fs with ⟨r, fs1, tr⟩
    rw [hu] at hok
    have hr : r = Except.ok () := hok
    subst hr
    have hload : loadState penv false fs path = Except.ok (State.default, fs1) := by
      rw [loadState, if_neg (by simp), hfs, hu]
    have hms : mainStartup penv false fs path = Except.ok (⟨none, State.default⟩, fs1) := by
      rw [mainStartup, hload]
      rfl
    refine ⟨hms, ?_, rfl, fun envs => ?_⟩
    · have := update_state_ok_target penv path State.default fs
      rw [hu] at this
      exact this rfl
    · rw [mainRun, hms]
  · have hload : loadState penv false fs path =
        Except.error "Couldn't write initial state file" := by
      rcases hu : update_state penv path State.default fs with ⟨r, fs1, tr⟩
      rw [hu] at herr
      have hr : r = Except.error e := herr
      subst hr
      rw [loadState, if_neg (by simp), hfs, hu]
    rw [mainStartup, hload]
  · have hload : loadState penv false fs path =
        Except.error "Couldn't parse state file" := by
      rw [loadState, if_neg (by simp), hfs]
      simp only [hparse]
    rw [mainStartup, hload]
  · rw [mainStartup, loadState, if_pos rfl]

/-- C7 witness: with an empty filesystem, startup returns the default state
and the state file now exists on disk holding the serialized default. -/
theorem first_run_bootstrap_witness :
    wFSE wPath = none ∧
    (update_state wPenv wPath State.default wFSE).1 = Except.ok () ∧
    mainStartup wPenv false wFSE wPath =
      Except.ok (⟨none, State.default⟩, (update_state wPenv wPath State.default wFSE).2.1) ∧
    (update_state wPenv wPath State.default wFSE).2.1 wPath
      = some (serializeState State.default) :=
  ⟨rfl, rfl,
    (((first_run_bootstrap wCfg wPenv wFSE wPath).1 rfl).1 rfl).1,
    (((first_run_bootstrap wCfg wPenv wFSE wPath).1 rfl).1 rfl).2.1⟩

/-! ### Tick lemmas -/

lemma persistPhase_facts (penv : PersistEnv) (path : TPath) (current : Ipv4) (fs : FS)
    (s1 : LoopState) (upC : Option Ipv4) (upOk : Bool) (bB : Option Ipv4) :
    (persistPhase penv path current fs s1 upC upOk bB).2.1.namecheap_addr = s1.namecheap_addr ∧
    ((persistPhase penv path current fs s1 upC upOk bB).2.1.state = s1.state ∨
      (persistPhase penv path current fs s1 upC upOk bB).2.1.state = ⟨some current⟩) ∧
    (∀ v, (persistPhase penv path current fs s1 upC upOk bB).2.2.persistCalled = some v →
      v = State.mk (some current)) ∧
    (persistPhase penv path current fs s1 upC upOk bB).2.2.updateCalled = upC ∧
    (persistPhase penv path current fs s1 upC upOk bB).2.2.beliefBefore = bB ∧
    (persistPhase penv path current fs s1 upC upOk bB).2.2.beliefAfterUpdate
      = s1.namecheap_addr ∧
    (persistPhase penv path current fs s1 upC upOk bB).2.2.updateOk = upOk := by
  rw [persistPhase]
  by_cases hps : some current ≠ s1.state.addr
  · rw [if_pos hps]
    rcases hu : update_state penv path ⟨some current⟩ fs with ⟨r, fs2, tr⟩
    cases r with
    | ok u =>
      exact ⟨rfl, Or.inr rfl, fun v hv => (Option.some.inj hv).symm, rfl, rfl, rfl, rfl⟩
    | error e =>
      exact ⟨rfl, Or.inl rfl, fun v hv => (Option.some.inj hv).symm, rfl, rfl, rfl, rfl⟩
  · rw [if_neg hps]
    exact ⟨rfl, Or.inl rfl, fun v hv => Option.noConfusion hv, rfl, rfl, rfl, rfl⟩

/-- C3: on a tick where the resolved address A1 equals the belief but differs
from the state copy A0, no provider call is made, a persistence call for A1 is
made; on success the persisted state (memory and disk) becomes A1, on failure
it stays A0 (and the filesystem is untouched) while the belief stays A1. -/
theorem decoupled_persistence (cfg : Config) (path : TPath) (env : TickEnv) (fs : FS)
    (s : LoopState) (a1 a0 : Ipv4)
    (hres : current_address env.resolveResp = Except.ok a1)
    (hbel : s.namecheap_addr = some a1)
    (hst : s.state.addr = some a0)
    (hne : a0 ≠ a1)
    (fresh : ∀ dir tmp, env.persistEnv.tempChoice dir = some tmp → fs tmp = none) :
    (tick cfg path env fs s).2.2.updateCalled = none ∧
    (tick cfg path env fs s).2.2.persistCalled = some ⟨some a1⟩ ∧
    (tick cfg path env fs s).2.1.namecheap_addr = some a1 ∧
    ((tick cfg path env fs s).2.2.persistOk = true →
      (tick cfg path env fs s).2.1.state.addr = some a1 ∧
      (tick cfg path env fs s).1 path = some (serializeState ⟨some a1⟩)) ∧
    ((tick cfg path env fs s).2.2.persistOk = false →
      (tick cfg path env fs s).2.1.state.addr = some a0 ∧
      (tick cfg path env fs s).1 = fs) := by
  have hnb : ¬(some a1 ≠ s.namecheap_addr) := by
    rw [hbel]
    exact fun h => h rfl
  have hps : some a1 ≠ s.state.addr := by
    rw [hst]
    intro h
    exact hne (Option.some.inj h).symm
  rw [tick, hres]
  simp only [if_neg hnb]
  rw [persistPhase]
  simp only [if_pos hps]
  rcases hu : update_state env.persistEnv path ⟨some a1⟩ fs with ⟨r, fs2, tr⟩
  cases r with
  | ok u =>
    cases u
    have htgt := update_state_ok_target env.persistEnv path ⟨some a1⟩ fs
    rw [hu] at htgt
    exact ⟨rfl, rfl, hbel, fun _ => ⟨rfl, htgt rfl⟩, fun h => Bool.noConfusion h⟩
  | error e =>
    have hfs2 := update_state_error_fs env.persistEnv path ⟨some a1⟩ fs fresh e
    rw [hu] at hfs2
    exact ⟨rfl, rfl, hbel, fun h => Bool.noConfusion h, fun _ => ⟨hst, hfs2 rfl⟩⟩

/-- C3 witness: the decoupled-persistence theorem at a concrete tick where
belief is already A1 but the state copy is A0. -/
theorem decoupled_persistence_witness :
    current_address (some ⟨200, "1.2.3.4"⟩) = Except.ok wAddr1 ∧
    ((tick wCfg wPath ⟨some ⟨200, "1.2.3.4"⟩, none, wPenv⟩ wFS0
        ⟨some wAddr1, ⟨some wAddr2⟩⟩).2.2.updateCalled = none ∧
      (tick wCfg wPath ⟨some ⟨200, "1.2.3.4"⟩, none, wPenv⟩ wFS0
        ⟨some wAddr1, ⟨some wAddr2⟩⟩).2.2.persistCalled = some ⟨some wAddr1⟩ ∧
      (tick wCfg wPath ⟨some ⟨200, "1.2.3.4"⟩, none, wPenv⟩ wFS0
        ⟨some wAddr1, ⟨some wAddr2⟩⟩).2.1.namecheap_addr = some wAddr1 ∧
      ((tick wCfg wPath ⟨some ⟨200, "1.2.3.4"⟩, none, wPenv⟩ wFS0
        ⟨some wAddr1, ⟨some wAddr2⟩⟩).2.2.persistOk = true →
        (tick wCfg wPath ⟨some ⟨200, "1.2.3.4"⟩, none, wPenv⟩ wFS0
          ⟨some wAddr1, ⟨some wAddr2⟩⟩).2.1.state.addr = some wAddr1 ∧
        (tick wCfg wPath ⟨some ⟨200, "1.2.3.4"⟩, none, wPenv⟩ wFS0
          ⟨some wAddr1, ⟨some wAddr2⟩⟩).1 wPath = some (serializeState ⟨some wAddr1⟩)) ∧
      ((tick wCfg wPath ⟨some ⟨200, "1.2.3.4"⟩, none, wPenv⟩ wFS0
        ⟨some wAddr1, ⟨some wAddr2⟩⟩).2.2.persistOk = false →
        (tick wCfg wPath ⟨some ⟨200, "1.2.3.4"⟩, none, wPenv⟩ wFS0
          ⟨some wAddr1, ⟨some wAddr2⟩⟩).2.1.state.addr = some wAddr2 ∧
        (tick wCfg wPath ⟨some ⟨200, "1.2.3.4"⟩, none, wPenv⟩ wFS0
          ⟨some wAddr1, ⟨some wAddr2⟩⟩).1 = wFS0)) :=
  ⟨by decide,
    decoupled_persistence wCfg wPath ⟨some ⟨200, "1.2.3.4"⟩, none, wPenv⟩ wFS0
      ⟨some wAddr1, ⟨some wAddr2⟩⟩ wAddr1 wAddr2 (by decide) rfl rfl (by decide)
      (fun dir tmp h => (wFS0_fresh dir tmp h).1)⟩

/-- C9: a tick never regresses a known address to unknown: if the belief or
the state copy holds a concrete address, it still does after the tick, and
every steady-state persistence call writes a concrete address (never the
unknown value). -/
theorem no_regression_to_unknown (cfg : Config) (path : TPath) (env : TickEnv)
    (fs : FS) (s : LoopState) :
    (s.namecheap_addr.isSome = true →
      (tick cfg path env fs s).2.1.namecheap_addr.isSome = true) ∧
    (s.state.addr.isSome = true →
      (tick cfg path env fs s).2.1.state.addr.isSome = true) ∧
    (∀ v, (tick cfg path env fs s).2.2.persistCalled = some v → v.addr.isSome = true) := by
  cases hres : current_address env.resolveResp with
  | error e =>
    rw [tick, hres]
    exact ⟨fun h => h, fun h => h, fun v hv => Option.noConfusion hv⟩
  | ok current =>
    rw [tick, hres]
    by_cases hb : some current ≠ s.namecheap_addr
    · simp only [if_pos hb]
      cases hup : update_address cfg current env.updateResp with
      | error e =>
        exact ⟨fun h => h, fun h => h, fun v hv => Option.noConfusion hv⟩
      | ok u =>
        cases u
        obtain ⟨f1, f2, f3, -, -, -, -⟩ := persistPhase_facts env.persistEnv path current fs
          { s with namecheap_addr := some current } (some current) true s.namecheap_addr
        refine ⟨fun _ => ?_, fun h => ?_, fun v hv => ?_⟩
        · rw [f1]
          rfl
        · rcases f2 with he | he <;> rw [he]
          · exact h
          · rfl
        · rw [f3 v hv]
          rfl
    · simp only [if_neg hb]
      obtain ⟨f1, f2, f3, -, -, -, -⟩ := persistPhase_facts env.persistEnv path current fs
        s none false s.namecheap_addr
      refine ⟨fun h => ?_, fun h => ?_, fun v hv => ?_⟩
      · rw [f1]
        exact h
      · rcases f2 with he | he <;> rw [he]
        · exact h
        · rfl
      · rw [f3 v hv]
        rfl

/-- C9 witness: the no-regression theorem at a concrete tick that persists a
concrete address. -/
theorem no_regression_to_unknown_witness :
    ((⟨some wAddr1, ⟨some wAddr1⟩⟩ : LoopState).namecheap_addr.isSome = true →
      (tick wCfg wPath ⟨some ⟨200, "5.6.7.8"⟩, some ⟨200, wOkBody⟩, wPenv⟩ wFS0
        ⟨some wAddr1, ⟨some wAddr1⟩⟩).2.1.namecheap_addr.isSome = true) ∧
    ((⟨some wAddr1, ⟨some wAddr1⟩⟩ : LoopState).state.addr.isSome = true →
      (tick wCfg wPath ⟨some ⟨200, "5.6.7.8"⟩, some ⟨200, wOkBody⟩, wPenv⟩ wFS0
        ⟨some wAddr1, ⟨some wAddr1⟩⟩).2.1.state.addr.isSome = true) ∧
    (∀ v, (tick wCfg wPath ⟨some ⟨200, "5.6.7.8"⟩, some ⟨200, wOkBody⟩, wPenv⟩ wFS0
        ⟨some wAddr1, ⟨some wAddr1⟩⟩).2.2.persistCalled = some v → v.addr.isSome = true) :=
  no_regression_to_unknown wCfg wPath ⟨some ⟨200, "5.6.7.8"⟩, some ⟨200, wOkBody⟩, wPenv⟩
    wFS0 ⟨some wAddr1, ⟨some wAddr1⟩⟩

lemma tick_belief_matches (cfg : Config) (path : TPath) (env : TickEnv) (fs : FS)
    (s : LoopState) (a : Ipv4)
    (hres : current_address env.resolveResp = Except.ok a)
    (hbel : s.namecheap_addr = some a) :
    (tick cfg path env fs s).2.2.updateCalled = none ∧
    (tick cfg path env fs s).2.1.namecheap_addr = some a := by
  have hnb : ¬(some a ≠ s.namecheap_addr) := by
    rw [hbel]
    exact fun h => h rfl
  rw [tick, hres]
  simp only [if_neg hnb]
  obtain ⟨f1, -, -, f4, -, -, -⟩ := persistPhase_facts env.persistEnv path a fs s
    none false s.namecheap_addr
  exact ⟨f4, by rw [f1, hbel]⟩

lemma run_no_update_calls (cfg : Config) (path : TPath) (a : Ipv4) :
    ∀ (envs : List TickEnv) (fs : FS) (s : LoopState),
      s.namecheap_addr = some a →
      (∀ env ∈ envs, current_address env.resolveResp = Except.ok a) →
      ∀ ev ∈ (run cfg path fs s envs).2.2, ev.updateCalled = none
  | [], fs, s => by
    intro hbel hall ev hev
    rw [run] at hev
    cases hev
  | env :: rest, fs, s => by
    intro hbel hall ev hev
    obtain ⟨hupd, hbel1⟩ := tick_belief_matches cfg path env fs s a
      (hall env (List.mem_cons_self env rest)) hbel
    cases hev with
    | head => exact hupd
    | tail b hmem =>
      exact run_no_update_calls cfg path a rest (tick cfg path env fs s).1
        (tick cfg path env fs s).2.1 hbel1
        (fun e he => hall e (List.mem_cons_of_mem env he)) ev hmem

/-- C8: over any sequence of ticks on which the resolved address equals the
in-memory belief, no provider update call is made on any tick, even when the
persisted state differs from the belief. -/
theorem idempotent_no_update_calls (cfg : Config) (path : TPath) (fs : FS) (s : LoopState)
    (a : Ipv4) (envs : List TickEnv)
    (hbel : s.namecheap_addr = some a)
    (hall : ∀ env ∈ envs, current_address env.resolveResp = Except.ok a) :
    ∀ ev ∈ (run cfg path fs s envs).2.2, ev.updateCalled = none :=
  run_no_update_calls cfg path a envs fs s hbel hall

/-- C8 witness: two consecutive ticks resolving the believed address, with the
persisted state differing from the belief, make no update call. -/
theorem idempotent_no_update_calls_witness :
    (⟨some wAddr1, State.mk none⟩ : LoopState).namecheap_addr = some wAddr1 ∧
    (∀ env ∈ wEnvs2, current_address env.resolveResp = Except.ok wAddr1) ∧
    ∀ ev ∈ (run wCfg wPath wFS0 ⟨some wAddr1, State.mk none⟩ wEnvs2).2.2,
      ev.updateCalled = none :=
  ⟨rfl, by decide,
    idempotent_no_update_calls wCfg wPath wFS0 ⟨some wAddr1, State.mk none⟩ wAddr1 wEnvs2
      rfl (by decide)⟩

lemma tick_events_sound (cfg : Config) (path : TPath) (env : TickEnv) (fs : FS)
    (s : LoopState) :
    (tick cfg path env fs s).2.2.beliefBefore = s.namecheap_addr ∧
    (∀ a, (tick cfg path env fs s).2.2.persistCalled = some ⟨some a⟩ →
      (tick cfg path env fs s).2.2.beliefAfterUpdate = some a ∧
      ((tick cfg path env fs s).2.2.beliefBefore = some a ∨
        ((tick cfg path env fs s).2.2.updateCalled = some a ∧
         (tick cfg path env fs s).2.2.updateOk = true))) ∧
    ((tick cfg path env fs s).2.2.beliefAfterUpdate ≠ (tick cfg path env fs s).2.2.beliefBefore →
      (tick cfg path env fs s).2.2.updateOk = true ∧
      (tick cfg path env fs s).2.2.updateCalled
        = (tick cfg path env fs s).2.2.beliefAfterUpdate) := by
  cases hres : current_address env.resolveResp with
  | error e =>
    rw [tick, hres]
    exact ⟨rfl, fun a hv => Option.noConfusion hv, fun hne => absurd rfl hne⟩
  | ok current =>
    rw [tick, hres]
    by_cases hb : some current ≠ s.namecheap_addr
    · simp only [if_pos hb]
      cases hup : update_address cfg current env.updateResp with
      | error e =>
        exact ⟨rfl, fun a hv => Option.noConfusion hv, fun hne => absurd rfl hne⟩
      | ok u =>
        cases u
        obtain ⟨-, -, f3, f4, f5, f6, f7⟩ := persistPhase_facts env.persistEnv path current fs
          { s with namecheap_addr := some current } (some current) true s.namecheap_addr
        refine ⟨f5, fun a hv => ?_, fun hne => ⟨f7, by rw [f4, f6]⟩⟩
        have hac : a = current :=
          Option.some.inj (congrArg State.addr (f3 _ hv))
        subst hac
        exact ⟨by rw [f6], Or.inr ⟨f4, f7⟩⟩
    · simp only [if_neg hb]
      have hbeq : some current = s.namecheap_addr := not_not.mp hb
      obtain ⟨-, -, f3, f4, f5, f6, -⟩ := persistPhase_facts env.persistEnv path current fs
        s none false s.namecheap_addr
      refine ⟨f5, fun a hv => ?_, fun hne => ?_⟩
      · have hac : a = current :=
          Option.some.inj (congrArg State.addr (f3 _ hv))
        subst hac
        exact ⟨by rw [f6, ← hbeq], Or.inl (by rw [f5, ← hbeq])⟩
      · rw [f5, f6] at hne
        exact absurd rfl hne

lemma run_events_sound (cfg : Config) (path : TPath) :
    ∀ (envs : List TickEnv) (fs : FS) (s : LoopState),
      ∀ ev ∈ (run cfg path fs s envs).2.2,
        (∀ a, ev.persistCalled = some ⟨some a⟩ →
          ev.beliefAfterUpdate = some a ∧
          (ev.beliefBefore = some a ∨ (ev.updateCalled = some a ∧ ev.updateOk = true))) ∧
        (ev.beliefAfterUpdate ≠ ev.beliefBefore →
          ev.updateOk = true ∧ ev.updateCalled = ev.beliefAfterUpdate)
  | [], fs, s => by
    intro ev hev
    rw [run] at hev
    cases hev
  | env :: rest, fs, s => by
    intro ev hev
    cases hev with
    | head =>
      have hf := tick_events_sound cfg path env fs s
      exact ⟨hf.2.1, hf.2.2⟩
    | tail b hmem =>
      exact run_events_sound cfg path rest (tick cfg path env fs s).1
        (tick cfg path env fs s).2.1 ev hmem

/-- C1: in every reachable execution, addresses are persisted only after
confirmation: at startup the belief is seeded from the loaded state, and on
every tick a persistence of address `a` happens only when the belief (after
the tick's update phase) is already `a`, which in turn requires that the
belief was `a` before the tick or that an update call for `a` succeeded on
this very tick; the belief changes only through a successful update call. -/
theorem persist_only_confirmed (cfg : Config) (path : TPath) (penv : PersistEnv)
    (envFail : Bool) (fs0 : FS) (s0 : LoopState) (fs1 : FS)
    (hstart : mainStartup penv envFail fs0 path = Except.ok (s0, fs1))
    (envs : List TickEnv) :
    s0.namecheap_addr = s0.state.addr ∧
    ∀ ev ∈ (run cfg path fs1 s0 envs).2.2,
      (∀ a, ev.persistCalled = some ⟨some a⟩ →
        ev.beliefAfterUpdate = some a ∧
        (ev.beliefBefore = some a ∨ (ev.updateCalled = some a ∧ ev.updateOk = true))) ∧
      (ev.beliefAfterUpdate ≠ ev.beliefBefore →
        ev.updateOk = true ∧ ev.updateCalled = ev.beliefAfterUpdate) := by
  constructor
  · rw [mainStartup] at hstart
    rcases hl : loadState penv envFail fs0 path with e | ⟨st, fsx⟩
    · rw [hl] at hstart
      cases hstart
    · rw [hl] at hstart
      have hpair := Except.ok.inj hstart
      have hs : ({ namecheap_addr := st.addr, state := st } : LoopState) = s0 :=
        congrArg Prod.fst hpair
      rw [← hs]
  · exact run_events_sound cfg path envs fs1 s0

/-- C1 witness: the theorem instantiated at a concrete startup (existing
state file) and a one-tick run that updates and persists a new address. -/
theorem persist_only_confirmed_witness :
    mainStartup wPenv false wFS0 wPath = Except.ok (⟨none, State.mk none⟩, wFS0) ∧
    ((⟨none, State.mk none⟩ : LoopState).namecheap_addr
        = (⟨none, State.mk none⟩ : LoopState).state.addr ∧
      ∀ ev ∈ (run wCfg wPath wFS0 ⟨none, State.mk none⟩ wEnvs1).2.2,
        (∀ a, ev.persistCalled = some ⟨some a⟩ →
          ev.beliefAfterUpdate = some a ∧
          (ev.beliefBefore = some a ∨ (ev.updateCalled = some a ∧ ev.updateOk = true))) ∧
        (ev.beliefAfterUpdate ≠ ev.beliefBefore →
          ev.updateOk = true ∧ ev.updateCalled = ev.beliefAfterUpdate)) :=
  ⟨rfl, persist_only_confirmed wCfg wPath wPenv false wFS0 ⟨none, State.mk none⟩ wFS0
    rfl wEnvs1⟩

end Rnccd
